import Mathlib

/-!
Verification development for the autobid core of the lelang-cli repository.

The embedding follows src/autobid.py and src/server_time.py.  Time values
(seconds, milliseconds) are modelled as rationals, money amounts as integers
(Python ints).  Network I/O is modelled by passing each tick the data the
remote service would have returned: the raced poll result, the outcome of a
submit request, and the synchronized server clock reading.  Display-only
strings in the Python code carry interpolated values and emoji; here they are
abbreviated to fixed literals, since no property depends on their content.
-/

namespace Lelang

/-- One entry of the remote bid ledger, as parsed from the JSON body of
`GET BIDDING_HISTORY/lot/riwayat`.  Both keys are read with `dict.get`, so
each may be absent (`none`). -/
structure BidRecord where
  bidAmount : Option Int
  userAuctionId : Option String
deriving DecidableEq

/-- The `for item in items` scan of `get_latest_bid_concurrent` /
`get_latest_bid_fast` (src/autobid.py lines 207-211): the first record whose
`userAuctionId` equals the operator's id yields its `bidAmount` (default 0);
no match leaves `my_bid = 0`. -/
def findMyBid (myId : String) : List BidRecord → Int
  | [] => 0
  | r :: rs =>
    if r.userAuctionId = some myId then r.bidAmount.getD 0 else findMyBid myId rs

/-- The guarded scan: Python runs the loop only `if self.my_user_auction_id:`
(a non-empty string); otherwise `my_bid` stays 0. -/
def myBidFromItems (myId : String) (items : List BidRecord) : Int :=
  if myId = "" then 0 else findMyBid myId items

/-- Model of `AutoBidBot.get_latest_bid_concurrent` (src/autobid.py lines
172-215).  Each element of the input list is one raced request, in the order
`as_completed` yields them: `none` when the request raised, returned a
non-200 status, or produced a falsy JSON body; `some items` is the parsed
`data` array (absent key gives `some []`), paired with that request's elapsed
milliseconds.  The final rational is the total elapsed time used by the
fall-through return.  The function never touches the bot's error list, which
is threaded through unchanged, and it is total (never raises). -/
def get_latest_bid_concurrent (myId : String) (errs : List String) :
    List (Option (List BidRecord) × ℚ) → ℚ → (Int × String × Int × ℚ) × List String
  | [], totalElapsed => ((0, "", 0, totalElapsed), errs)
  | (data, elapsed) :: rest, totalElapsed =>
    match data with
    | some (item :: items) =>
        ((item.bidAmount.getD 0, item.userAuctionId.getD "",
          myBidFromItems myId (item :: items), elapsed), errs)
    | some [] => get_latest_bid_concurrent myId errs rest totalElapsed
    | none => get_latest_bid_concurrent myId errs rest totalElapsed

/-- Parsed JSON body of a submit response: the `code` and `message` keys,
each possibly absent (`dict.get`). -/
structure SubmitBody where
  code : Option Int
  message : Option String
deriving DecidableEq

/-- Result of `response.json()` on a submit response: a parsed body, or the
text of the exception the parse raised (caught by the outer handler). -/
inductive JsonParse
  | ok (b : SubmitBody)
  | err (e : String)
deriving DecidableEq

/-- Outcome of the POST in `submit_bid_fast`: a network/timeout exception
with its text, or an HTTP response with the parse result of its body. -/
inductive SubmitOutcome
  | exn (e : String)
  | resp (status : Nat) (body : JsonParse)
deriving DecidableEq

/-- Model of `AutoBidBot.submit_bid_fast` (src/autobid.py lines 217-247),
restricted to its decision logic: success requires HTTP 200 and body
`code == 200`; a 200 with another code reports the body `message` (default
"Unknown error"); a non-200 reports `HTTP <status>`; an exception reports its
text.  Elapsed-time bookkeeping is carried by the tick input instead. -/
def submit_bid_fast (o : SubmitOutcome) : Bool × String :=
  match o with
  | .exn e => (false, e)
  | .resp status body =>
    if status = 200 then
      match body with
      | .ok b => if b.code = some 200 then (true, "Success") else (false, b.message.getD "Unknown error")
      | .err e => (false, e)
    else (false, "HTTP " ++ toString status)

/-- Model of module-level `parse_datetime` (src/autobid.py lines 26-35).
Calendar parsing itself is outside the decision logic, so the outcome of the
Python `try` block is supplied as `parsed` (`none` when both accepted
formats raise); the function adds the empty-string guard of line 28. -/
def parse_datetime (dtStr : String) (parsed : Option ℚ) : Option ℚ :=
  if dtStr = "" then none else parsed

/-- Model of `AutoBidBot.get_remaining_seconds` (src/autobid.py lines
128-135): no parsed end time gives the constant 9999999; otherwise the
difference between the end time and the synchronized server clock, clamped
to be non-negative. -/
def get_remaining_seconds (endTime : Option ℚ) (serverNow : ℚ) : ℚ :=
  match endTime with
  | none => 9999999
  | some t => max 0 (t - serverNow)

/-- The immutable session configuration captured by `AutoBidBot.__init__`
(src/autobid.py lines 58-77).  `end_time` is the result of
`parse_datetime(tgl_selesai)`; `poll_interval_ms` only drives sleeping and is
kept for completeness. -/
structure Config where
  lot_id : String
  max_budget : Int
  kelipatan_bid : Int
  pin : String
  poll_interval_ms : Int
  end_time : Option ℚ
  my_user_auction_id : String
  sniper_seconds : Int
deriving DecidableEq

/-- The mutable bot state (src/autobid.py lines 79-95).
`total_response_time` is the accumulator local to `run`; it lives here so
the average-response computation of line 390 can be expressed. -/
structure BotState where
  running : Bool
  bidding_active : Bool
  last_bid_amount : Int
  last_bidder_id : String
  my_last_bid : Int
  total_bids_submitted : Nat
  total_requests : Nat
  total_response_time : ℚ
  avg_response_time_ms : ℚ
  last_response_time_ms : ℚ
  is_my_bid : Bool
  status_message : String
  errors : List String
deriving DecidableEq

/-- `AutoBidBot.__init__` state initialisation: `running` is set False and
`bidding_active` starts true exactly when sniper mode is off
(`sniper_seconds == 0`, line 81). -/
def initState (cfg : Config) : BotState where
  running := false
  bidding_active := cfg.sniper_seconds == 0
  last_bid_amount := 0
  last_bidder_id := ""
  my_last_bid := 0
  total_bids_submitted := 0
  total_requests := 0
  total_response_time := 0
  avg_response_time_ms := 0
  last_response_time_ms := 0
  is_my_bid := false
  status_message := ""
  errors := []

/-- Entry to `run` (line 339): the flag `running` is set True. -/
def startState (cfg : Config) : BotState :=
  { initState cfg with running := true }

/-- Everything the outside world feeds one iteration of the main loop:
the synchronized clock reading used by `get_remaining_seconds`, the winning
raced poll result `(current_bid, bidder_id, my_bid_now, response_time)`, and
the submit outcome together with its elapsed time, consumed only if the
iteration actually posts a bid. -/
structure TickInput where
  server_now : ℚ
  current_bid : Int
  bidder_id : String
  my_bid_now : Int
  response_time : ℚ
  submit_resp : SubmitOutcome
  submit_time : ℚ
deriving DecidableEq

/-- Externally visible calls one loop iteration makes. -/
inductive Action
  | poll
  | submit (amount : Int)
deriving DecidableEq

/-- Sniper activation (src/autobid.py lines 380-383): while not yet active
and in sniper mode, become active once remaining time is at or below the
threshold. -/
def sniperCheck (cfg : Config) (remaining : ℚ) (s : BotState) : BotState :=
  if s.bidding_active = false ∧ 0 < cfg.sniper_seconds then
    if remaining ≤ (cfg.sniper_seconds : ℚ) then
      { s with bidding_active := true, status_message := "SNIPER ACTIVATED" }
    else s
  else s

/-- Statistics bookkeeping after the concurrent poll (lines 387-390): three
requests are counted, and the running average divides by
`total_requests // 3` (Nat division; the divisor is positive whenever the
loop has polled at least once). -/
def pollStats (i : TickInput) (s : BotState) : BotState :=
  let tr := s.total_requests + 3
  let trt := s.total_response_time + i.response_time
  { s with
      total_requests := tr
      last_response_time_ms := i.response_time
      total_response_time := trt
      avg_response_time_ms := trt / ((tr / 3 : Nat) : ℚ) }

/-- Ledger reconciliation (lines 392-394): any positive own bid reported by
the poll overwrites `my_last_bid` unconditionally. -/
def reconcileMyBid (myBidNow : Int) (s : BotState) : BotState :=
  if 0 < myBidNow then { s with my_last_bid := myBidNow } else s

/-- The `if current_bid > 0` block of the main loop (lines 395-424): record
the observation, compute the self-bid flag, and when eligible either submit
`current_bid + kelipatan_bid` (updating state on success, recording the
message on failure) or, if that would exceed the budget, stop the bot. -/
def processBid (cfg : Config) (i : TickInput) (s : BotState) : BotState × List Action :=
  if 0 < i.current_bid then
    let isMine : Bool :=
      if cfg.my_user_auction_id = "" then false
      else i.bidder_id == cfg.my_user_auction_id
    let s1 := { s with
                  last_bid_amount := i.current_bid
                  last_bidder_id := i.bidder_id
                  is_my_bid := isMine }
    -- the guard of line 403 reads `self.bidding_active` and `self.my_last_bid`,
    -- neither of which the assignments of lines 396-400 touch, so it is read
    -- off `s` directly
    if s.bidding_active = true ∧ isMine = false ∧ s.my_last_bid ≤ i.current_bid then
      let next_bid := i.current_bid + cfg.kelipatan_bid
      if next_bid ≤ cfg.max_budget then
        let r := submit_bid_fast i.submit_resp
        let s2 := { s1 with total_requests := s1.total_requests + 1 }
        if r.1 = true then
          ({ s2 with
               my_last_bid := next_bid
               total_bids_submitted := s2.total_bids_submitted + 1
               last_response_time_ms := i.submit_time }, [Action.submit next_bid])
        else
          ({ s2 with errors := s2.errors ++ [r.2] }, [Action.submit next_bid])
      else
        ({ s1 with status_message := "Budget exceeded", running := false }, [])
    else (s1, [])
  else (s, [])

/-- One iteration of the `while self.running` loop body (src/autobid.py
lines 370-424): check the end-of-auction guard, run the sniper activation
check, poll the ledger (the `Action.poll` below), reconcile the own bid, and
process the observation.  An iteration stopped by the end guard performs no
poll and no submit. -/
def step (cfg : Config) (s : BotState) (i : TickInput) : BotState × List Action :=
  let remaining := get_remaining_seconds cfg.end_time i.server_now
  if remaining ≤ 0 then
    ({ s with status_message := "Lelang telah berakhir", running := false }, [])
  else
    let s1 := sniperCheck cfg remaining s
    let s2 := pollStats i s1
    let s3 := reconcileMyBid i.my_bid_now s2
    let p := processBid cfg i s3
    (p.1, Action.poll :: p.2)

/-- The main loop: consume tick inputs while `running` holds, accumulating
the externally visible actions; the loop exits as soon as `running` is
cleared. -/
def runLoop (cfg : Config) : BotState → List TickInput → BotState × List Action
  | s, [] => (s, [])
  | s, i :: is =>
    if s.running = true then
      let p := step cfg s i
      let q := runLoop cfg p.1 is
      (q.1, p.2 ++ q.2)
    else (s, [])

/-- The sequence of states an execution passes through: the start state
followed by the state after each executed iteration (execution halts when
`running` is cleared). -/
def traceStates (cfg : Config) : BotState → List TickInput → List BotState
  | s, [] => [s]
  | s, i :: is =>
    if s.running = true then s :: traceStates cfg (step cfg s i).1 is
    else [s]

/-- Shared clock-offset state of src/server_time.py (lines 14-17):
`_server_time_offset` and `_is_synced`. -/
structure SyncState where
  offset : ℚ
  is_synced : Bool
deriving DecidableEq

/-- How the body of the `/servertime` response parsed: the nested
`data.time` value, the top-level `time` value, neither key present, or a
present-but-malformed value whose parse raised (caught at lines 67-68). -/
inductive BodyParse
  | dataTime (t : ℚ)
  | timeKey (t : ℚ)
  | missing
  | malformed
deriving DecidableEq

/-- The fixed WIB (UTC+7) adjustment applied to a parsed `Date` header
(lines 56-57 and 75-76). -/
def wibAdjust (d : ℚ) : ℚ := d + 7 * 3600

/-- Model of `sync_server_time` (src/server_time.py lines 20-89).  `T0` and
`T1` are the local clock readings around the single request; `dateHeader` is
the parsed `Date` header when present and parseable, else `none`.  On HTTP
200 the body keys are tried in order, falling back to the adjusted header;
on any other status only the header fallback runs.  Success records
`offset = serverTime - (T0 + roundTrip / 2)` and marks the state synced;
failure leaves the previous state in effect. -/
def sync_server_time (st : SyncState) (status : Nat) (body : BodyParse)
    (dateHeader : Option ℚ) (T0 T1 : ℚ) : SyncState × Bool :=
  let localEstimate := T0 + (T1 - T0) / 2
  if status = 200 then
    match body with
    | .dataTime t => ({ offset := t - localEstimate, is_synced := true }, true)
    | .timeKey t => ({ offset := t - localEstimate, is_synced := true }, true)
    | .missing =>
      match dateHeader with
      | some d => ({ offset := wibAdjust d - localEstimate, is_synced := true }, true)
      | none => (st, false)
    | .malformed =>
      match dateHeader with
      | some d => ({ offset := wibAdjust d - localEstimate, is_synced := true }, true)
      | none => (st, false)
  else
    match dateHeader with
    | some d => ({ offset := wibAdjust d - localEstimate, is_synced := true }, true)
    | none => (st, false)

/-- Model of `get_server_time` (src/server_time.py lines 92-95): the local
clock reading plus the recorded offset. -/
def get_server_time (st : SyncState) (localNow : ℚ) : ℚ := localNow + st.offset

/-- The server-reported instant a given response yields, if any: the body
time on HTTP 200 when one parses, else the WIB-adjusted `Date` header.
Derived for stating which value a successful sync records. -/
def reported_server_time (status : Nat) (body : BodyParse)
    (dateHeader : Option ℚ) : Option ℚ :=
  if status = 200 then
    match body with
    | .dataTime t => some t
    | .timeKey t => some t
    | .missing => dateHeader.map wibAdjust
    | .malformed => dateHeader.map wibAdjust
  else dateHeader.map wibAdjust

end Lelang

namespace Lelang

/-! ## Concrete fixtures used by witnesses and counterexamples -/

/-- Session with immediate bidding, increment 50000, budget 1000000. -/
def cfgImmediate : Config :=
  { lot_id := "L", max_budget := 1000000, kelipatan_bid := 50000, pin := "P",
    poll_interval_ms := 50, end_time := none, my_user_auction_id := "me",
    sniper_seconds := 0 }

/-- A tick input with the given poll observation and a successful submit. -/
def mkTick (cur : Int) (bid : String) (myb : Int) : TickInput :=
  { server_now := 100, current_bid := cur, bidder_id := bid, my_bid_now := myb,
    response_time := 10, submit_resp := .resp 200 (.ok ⟨some 200, none⟩),
    submit_time := 5 }

end Lelang

namespace Lelang

/-! ## Projection lemmas for the loop stages -/

section ProjectionLemmas

variable (cfg : Config) (s : BotState) (i : TickInput) (r : ℚ) (m : Int)

@[simp] lemma pollStats_running : (pollStats i s).running = s.running := rfl

@[simp] lemma pollStats_bidding_active : (pollStats i s).bidding_active = s.bidding_active := rfl

@[simp] lemma pollStats_my_last_bid : (pollStats i s).my_last_bid = s.my_last_bid := rfl

@[simp] lemma pollStats_errors : (pollStats i s).errors = s.errors := rfl

@[simp] lemma pollStats_total_bids : (pollStats i s).total_bids_submitted = s.total_bids_submitted := rfl

@[simp] lemma reconcileMyBid_running : (reconcileMyBid m s).running = s.running := by
  unfold reconcileMyBid; split <;> rfl

@[simp] lemma reconcileMyBid_bidding_active : (reconcileMyBid m s).bidding_active = s.bidding_active := by
  unfold reconcileMyBid; split <;> rfl

@[simp] lemma reconcileMyBid_errors : (reconcileMyBid m s).errors = s.errors := by
  unfold reconcileMyBid; split <;> rfl

@[simp] lemma reconcileMyBid_total_bids : (reconcileMyBid m s).total_bids_submitted = s.total_bids_submitted := by
  unfold reconcileMyBid; split <;> rfl

lemma reconcileMyBid_my_last_bid : (reconcileMyBid m s).my_last_bid = if 0 < m then m else s.my_last_bid := by
  unfold reconcileMyBid; split <;> rfl

@[simp] lemma sniperCheck_running : (sniperCheck cfg r s).running = s.running := by
  unfold sniperCheck; split_ifs <;> rfl

@[simp] lemma sniperCheck_my_last_bid : (sniperCheck cfg r s).my_last_bid = s.my_last_bid := by
  unfold sniperCheck; split_ifs <;> rfl

@[simp] lemma sniperCheck_errors : (sniperCheck cfg r s).errors = s.errors := by
  unfold sniperCheck; split_ifs <;> rfl

@[simp] lemma sniperCheck_total_bids : (sniperCheck cfg r s).total_bids_submitted = s.total_bids_submitted := by
  unfold sniperCheck; split_ifs <;> rfl

lemma sniperCheck_eq_of_active (h : s.bidding_active = true) : sniperCheck cfg r s = s := by
  unfold sniperCheck
  rw [h]
  simp

lemma sniperCheck_active_mono (h : s.bidding_active = true) : (sniperCheck cfg r s).bidding_active = true := by
  rw [sniperCheck_eq_of_active cfg s r h, h]

end ProjectionLemmas

/-! ## Case equations for one loop iteration -/

section StepEquations

variable (cfg : Config) (s : BotState) (i : TickInput)

lemma step_of_nonpos (hrem : get_remaining_seconds cfg.end_time i.server_now ≤ 0) :
    step cfg s i = ({ s with status_message := "Lelang telah berakhir", running := false }, []) := by
  simp only [step]
  rw [if_pos hrem]

lemma step_of_pos (hrem : 0 < get_remaining_seconds cfg.end_time i.server_now) :
    step cfg s i =
      ((processBid cfg i (reconcileMyBid i.my_bid_now
          (pollStats i (sniperCheck cfg (get_remaining_seconds cfg.end_time i.server_now) s)))).1,
        Action.poll :: (processBid cfg i (reconcileMyBid i.my_bid_now
          (pollStats i (sniperCheck cfg (get_remaining_seconds cfg.end_time i.server_now) s)))).2) := by
  simp only [step]
  rw [if_neg (not_le.mpr hrem)]

lemma processBid_success (h0 : 0 < i.current_bid)
    (hact : s.bidding_active = true)
    (hmine : (if cfg.my_user_auction_id = "" then false
              else (i.bidder_id == cfg.my_user_auction_id)) = false)
    (hge : s.my_last_bid ≤ i.current_bid)
    (hbud : i.current_bid + cfg.kelipatan_bid ≤ cfg.max_budget)
    (hsucc : (submit_bid_fast i.submit_resp).1 = true) :
    processBid cfg i s =
      ({ s with last_bid_amount := i.current_bid
                last_bidder_id := i.bidder_id
                is_my_bid := (if cfg.my_user_auction_id = "" then false
                              else (i.bidder_id == cfg.my_user_auction_id))
                total_requests := s.total_requests + 1
                my_last_bid := i.current_bid + cfg.kelipatan_bid
                total_bids_submitted := s.total_bids_submitted + 1
                last_response_time_ms := i.submit_time },
        [Action.submit (i.current_bid + cfg.kelipatan_bid)]) := by
  simp only [processBid]
  rw [if_pos h0, if_pos ⟨hact, hmine, hge⟩, if_pos hbud, if_pos hsucc]

lemma processBid_fail (h0 : 0 < i.current_bid)
    (hact : s.bidding_active = true)
    (hmine : (if cfg.my_user_auction_id = "" then false
              else (i.bidder_id == cfg.my_user_auction_id)) = false)
    (hge : s.my_last_bid ≤ i.current_bid)
    (hbud : i.current_bid + cfg.kelipatan_bid ≤ cfg.max_budget)
    (hfail : (submit_bid_fast i.submit_resp).1 = false) :
    processBid cfg i s =
      ({ s with last_bid_amount := i.current_bid
                last_bidder_id := i.bidder_id
                is_my_bid := (if cfg.my_user_auction_id = "" then false
                              else (i.bidder_id == cfg.my_user_auction_id))
                total_requests := s.total_requests + 1
                errors := s.errors ++ [(submit_bid_fast i.submit_resp).2] },
        [Action.submit (i.current_bid + cfg.kelipatan_bid)]) := by
  simp only [processBid]
  rw [if_pos h0, if_pos ⟨hact, hmine, hge⟩, if_pos hbud,
    if_neg (by rw [hfail]; exact Bool.false_ne_true)]

lemma processBid_over (h0 : 0 < i.current_bid)
    (hact : s.bidding_active = true)
    (hmine : (if cfg.my_user_auction_id = "" then false
              else (i.bidder_id == cfg.my_user_auction_id)) = false)
    (hge : s.my_last_bid ≤ i.current_bid)
    (hover : cfg.max_budget < i.current_bid + cfg.kelipatan_bid) :
    processBid cfg i s =
      ({ s with last_bid_amount := i.current_bid
                last_bidder_id := i.bidder_id
                is_my_bid := (if cfg.my_user_auction_id = "" then false
                              else (i.bidder_id == cfg.my_user_auction_id))
                status_message := "Budget exceeded"
                running := false },
        []) := by
  simp only [processBid]
  rw [if_pos h0, if_pos ⟨hact, hmine, hge⟩, if_neg (not_le.mpr hover)]

lemma processBid_noBid (h0 : ¬ 0 < i.current_bid) : processBid cfg i s = (s, []) := by
  simp only [processBid]
  rw [if_neg h0]

lemma processBid_notEligible (h0 : 0 < i.current_bid)
    (h : ¬ (s.bidding_active = true ∧
            (if cfg.my_user_auction_id = "" then false
             else (i.bidder_id == cfg.my_user_auction_id)) = false ∧
            s.my_last_bid ≤ i.current_bid)) :
    processBid cfg i s =
      ({ s with last_bid_amount := i.current_bid
                last_bidder_id := i.bidder_id
                is_my_bid := (if cfg.my_user_auction_id = "" then false
                              else (i.bidder_id == cfg.my_user_auction_id)) },
        []) := by
  simp only [processBid]
  rw [if_pos h0, if_neg h]

end StepEquations

/-! ## Budget safety helpers -/

lemma processBid_submit_le (cfg : Config) (i : TickInput) (s : BotState) (amt : Int)
    (h : Action.submit amt ∈ (processBid cfg i s).2) : amt ≤ cfg.max_budget := by
  simp only [processBid] at h
  split_ifs at h <;> simp_all

lemma step_submit_le (cfg : Config) (s : BotState) (i : TickInput) (amt : Int)
    (h : Action.submit amt ∈ (step cfg s i).2) : amt ≤ cfg.max_budget := by
  simp only [step] at h
  split_ifs at h
  · simp_all
  · simp only [List.mem_cons] at h
    rcases h with h | h
    · exact absurd h (by simp)
    · exact processBid_submit_le cfg i _ amt h

lemma runLoop_submit_le (cfg : Config) :
    ∀ (inputs : List TickInput) (s : BotState) (amt : Int),
      Action.submit amt ∈ (runLoop cfg s inputs).2 → amt ≤ cfg.max_budget := by
  intro inputs
  induction inputs with
  | nil => intro s amt h; simp [runLoop] at h
  | cons i is ih =>
    intro s amt h
    simp only [runLoop] at h
    split_ifs at h
    · simp only [List.mem_append] at h
      rcases h with h | h
      · exact step_submit_le cfg s i amt h
      · exact ih _ amt h
    · simp_all

lemma runLoop_stopped (cfg : Config) (s : BotState) (inputs : List TickInput)
    (h : s.running = false) : runLoop cfg s inputs = (s, []) := by
  cases inputs <;> simp [runLoop, h]

end Lelang

namespace Lelang

/-- Claim C1: over every run of the engine loop no submit action carries an
amount above the configured maximum budget; and on an iteration where the
observed bid is live, eligible, and the computed next bid
`current_bid + kelipatan_bid` exceeds the budget, the running flag is
cleared, that iteration performs no submit, and the loop exits immediately
after it. -/
theorem never_submits_over_budget
    (cfg : Config) (s : BotState) (inputs : List TickInput)
    (i : TickInput) (rest : List TickInput)
    (hrun : s.running = true)
    (hrem : 0 < get_remaining_seconds cfg.end_time i.server_now)
    (hact : s.bidding_active = true)
    (hcur : 0 < i.current_bid)
    (hmine : (if cfg.my_user_auction_id = "" then false
              else (i.bidder_id == cfg.my_user_auction_id)) = false)
    (hge : (if 0 < i.my_bid_now then i.my_bid_now else s.my_last_bid) ≤ i.current_bid)
    (hover : cfg.max_budget < i.current_bid + cfg.kelipatan_bid) :
    (∀ amt, Action.submit amt ∈ (runLoop cfg s inputs).2 → amt ≤ cfg.max_budget) ∧
    (step cfg s i).1.running = false ∧
    (∀ amt, Action.submit amt ∉ (step cfg s i).2) ∧
    runLoop cfg s (i :: rest) = ((step cfg s i).1, (step cfg s i).2) := by
  have hs3act : (reconcileMyBid i.my_bid_now (pollStats i
      (sniperCheck cfg (get_remaining_seconds cfg.end_time i.server_now) s))).bidding_active = true := by
    rw [reconcileMyBid_bidding_active, pollStats_bidding_active]
    exact sniperCheck_active_mono cfg s _ hact
  have hs3ge : (reconcileMyBid i.my_bid_now (pollStats i
      (sniperCheck cfg (get_remaining_seconds cfg.end_time i.server_now) s))).my_last_bid ≤ i.current_bid := by
    rw [reconcileMyBid_my_last_bid, pollStats_my_last_bid, sniperCheck_my_last_bid]
    exact hge
  have hstep := step_of_pos cfg s i hrem
  rw [processBid_over cfg _ i hcur hs3act hmine hs3ge hover] at hstep
  have hstop : (step cfg s i).1.running = false := by rw [hstep]
  refine ⟨fun amt h => runLoop_submit_le cfg inputs s amt h, hstop, ?_, ?_⟩
  · intro amt
    rw [hstep]
    simp
  · simp only [runLoop]
    rw [if_pos hrun, runLoop_stopped cfg _ rest hstop]
    simp

/-- Witness for C1: a concrete iteration with current bid 950000, increment
100000, budget 1000000: next bid 1050000 exceeds the budget, the bot stops
and issues no submit. -/
theorem never_submits_over_budget_witness :
    ((step { lot_id := "L", max_budget := 1000000, kelipatan_bid := 100000, pin := "P",
             poll_interval_ms := 50, end_time := none, my_user_auction_id := "me",
             sniper_seconds := 0 }
        (startState { lot_id := "L", max_budget := 1000000, kelipatan_bid := 100000, pin := "P",
                      poll_interval_ms := 50, end_time := none, my_user_auction_id := "me",
                      sniper_seconds := 0 })
        { server_now := 100, current_bid := 950000, bidder_id := "other", my_bid_now := 0,
          response_time := 10, submit_resp := .resp 200 (.ok ⟨some 200, none⟩),
          submit_time := 5 }).1.running = false) ∧
    (∀ amt, Action.submit amt ∉
      (step { lot_id := "L", max_budget := 1000000, kelipatan_bid := 100000, pin := "P",
              poll_interval_ms := 50, end_time := none, my_user_auction_id := "me",
              sniper_seconds := 0 }
        (startState { lot_id := "L", max_budget := 1000000, kelipatan_bid := 100000, pin := "P",
                      poll_interval_ms := 50, end_time := none, my_user_auction_id := "me",
                      sniper_seconds := 0 })
        { server_now := 100, current_bid := 950000, bidder_id := "other", my_bid_now := 0,
          response_time := 10, submit_resp := .resp 200 (.ok ⟨some 200, none⟩),
          submit_time := 5 }).2) := by
  have h := never_submits_over_budget
    { lot_id := "L", max_budget := 1000000, kelipatan_bid := 100000, pin := "P",
      poll_interval_ms := 50, end_time := none, my_user_auction_id := "me",
      sniper_seconds := 0 }
    (startState { lot_id := "L", max_budget := 1000000, kelipatan_bid := 100000, pin := "P",
                  poll_interval_ms := 50, end_time := none, my_user_auction_id := "me",
                  sniper_seconds := 0 })
    []
    { server_now := 100, current_bid := 950000, bidder_id := "other", my_bid_now := 0,
      response_time := 10, submit_resp := .resp 200 (.ok ⟨some 200, none⟩),
      submit_time := 5 }
    []
    (by decide) (by decide) (by decide) (by decide) (by decide) (by decide) (by decide)
  exact ⟨h.2.1, h.2.2.1⟩

end Lelang

namespace Lelang

/-! ## C2: monotonicity of my_last_bid -/

lemma processBid_my_last_bid_ge (cfg : Config) (i : TickInput) (s : BotState)
    (hinc : 0 ≤ cfg.kelipatan_bid) : s.my_last_bid ≤ (processBid cfg i s).1.my_last_bid := by
  simp only [processBid]
  split_ifs <;> simp_all <;> omega

/-- Counterexample to C2: starting from the initial running state, a first
iteration in which the poll reports an own ledger bid of 500000 sets
`my_last_bid` to 500000, and a second iteration in which the poll reports an
own ledger bid of 450000 assigns the strictly smaller 450000 (src/autobid.py
lines 393-394 overwrite unconditionally). -/
theorem my_last_bid_decreases_counterexample :
    (step cfgImmediate (step cfgImmediate (startState cfgImmediate) (mkTick 0 "" 500000)).1
        (mkTick 0 "" 450000)).1.my_last_bid <
      ((step cfgImmediate (startState cfgImmediate) (mkTick 0 "" 500000)).1).my_last_bid := by
  decide

/-- Claim C2 as amended: with a non-negative increment, `my_last_bid` can
only decrease on an iteration whose poll reported a positive own ledger bid
strictly below the current value; every other assignment (submission success
included) is non-decreasing. -/
theorem my_last_bid_decrease_only_from_ledger
    (cfg : Config) (s : BotState) (i : TickInput)
    (hinc : 0 ≤ cfg.kelipatan_bid)
    (hdec : (step cfg s i).1.my_last_bid < s.my_last_bid) :
    0 < i.my_bid_now ∧ i.my_bid_now < s.my_last_bid := by
  by_cases hrem : get_remaining_seconds cfg.end_time i.server_now ≤ 0
  · rw [step_of_nonpos cfg s i hrem] at hdec
    exact absurd hdec (lt_irrefl _)
  · rw [step_of_pos cfg s i (not_le.mp hrem)] at hdec
    have hge := processBid_my_last_bid_ge cfg i
      (reconcileMyBid i.my_bid_now
        (pollStats i (sniperCheck cfg (get_remaining_seconds cfg.end_time i.server_now) s))) hinc
    rw [reconcileMyBid_my_last_bid, pollStats_my_last_bid, sniperCheck_my_last_bid] at hge
    by_cases hmb : 0 < i.my_bid_now
    · rw [if_pos hmb] at hge
      exact ⟨hmb, lt_of_le_of_lt hge hdec⟩
    · rw [if_neg hmb] at hge
      exact absurd (lt_of_le_of_lt hge hdec) (lt_irrefl _)

/-- Witness for the amended C2: a concrete iteration whose poll reports own
bid 450000 while `my_last_bid` is 500000 does decrease the value, and the
theorem attributes the decrease to that reported ledger bid. -/
theorem my_last_bid_decrease_witness :
    0 ≤ cfgImmediate.kelipatan_bid ∧
    (0 < (mkTick 0 "" 450000).my_bid_now ∧
      (mkTick 0 "" 450000).my_bid_now <
        ({ startState cfgImmediate with my_last_bid := 500000 } : BotState).my_last_bid) :=
  ⟨by decide,
    my_last_bid_decrease_only_from_ledger cfgImmediate
      { startState cfgImmediate with my_last_bid := 500000 } (mkTick 0 "" 450000)
      (by decide) (by decide)⟩

/-! ## C3: eligible observation triggers a submit of observed + increment -/

/-- Claim C3: on an iteration where the engine is active, the observed bid
is positive and not the operator's own, the observed amount is at least the
(ledger-reconciled) own last bid, and the next bid fits the budget, the
engine performs exactly one submit of `current_bid + kelipatan_bid`; on
submission success `my_last_bid` becomes that amount and the submitted-bid
counter increments. -/
theorem eligible_outbid_submits_next
    (cfg : Config) (s : BotState) (i : TickInput)
    (hrem : 0 < get_remaining_seconds cfg.end_time i.server_now)
    (hact : s.bidding_active = true)
    (hcur : 0 < i.current_bid)
    (hmine : (if cfg.my_user_auction_id = "" then false
              else (i.bidder_id == cfg.my_user_auction_id)) = false)
    (hge : (if 0 < i.my_bid_now then i.my_bid_now else s.my_last_bid) ≤ i.current_bid)
    (hbud : i.current_bid + cfg.kelipatan_bid ≤ cfg.max_budget)
    (hsucc : (submit_bid_fast i.submit_resp).1 = true) :
    (step cfg s i).2 = [Action.poll, Action.submit (i.current_bid + cfg.kelipatan_bid)] ∧
    (step cfg s i).1.my_last_bid = i.current_bid + cfg.kelipatan_bid ∧
    (step cfg s i).1.total_bids_submitted = s.total_bids_submitted + 1 := by
  have hs3act : (reconcileMyBid i.my_bid_now (pollStats i
      (sniperCheck cfg (get_remaining_seconds cfg.end_time i.server_now) s))).bidding_active = true := by
    rw [reconcileMyBid_bidding_active, pollStats_bidding_active]
    exact sniperCheck_active_mono cfg s _ hact
  have hs3ge : (reconcileMyBid i.my_bid_now (pollStats i
      (sniperCheck cfg (get_remaining_seconds cfg.end_time i.server_now) s))).my_last_bid ≤ i.current_bid := by
    rw [reconcileMyBid_my_last_bid, pollStats_my_last_bid, sniperCheck_my_last_bid]
    exact hge
  have hstep := step_of_pos cfg s i hrem
  rw [processBid_success cfg _ i hcur hs3act hmine hs3ge hbud hsucc] at hstep
  refine ⟨?_, ?_, ?_⟩ <;> rw [hstep] <;> simp

/-- Witness for C3, the literal spec scenario: increment 50000, budget
1000000, own last bid 450000, a competitor bid of 500000 observed; the
iteration submits 550000 and on success records it. -/
theorem eligible_outbid_submits_next_witness :
    (step cfgImmediate { startState cfgImmediate with my_last_bid := 450000 }
        (mkTick 500000 "other" 0)).2 =
      [Action.poll, Action.submit 550000] ∧
    (step cfgImmediate { startState cfgImmediate with my_last_bid := 450000 }
        (mkTick 500000 "other" 0)).1.my_last_bid = 550000 := by
  have h := eligible_outbid_submits_next cfgImmediate
    { startState cfgImmediate with my_last_bid := 450000 } (mkTick 500000 "other" 0)
    (by decide) (by decide) (by decide) (by decide) (by decide) (by decide) (by decide)
  exact ⟨h.1, h.2.1⟩

end Lelang

namespace Lelang

/-! ## C4: self-bids are never countered -/

lemma processBid_is_my_bid (cfg : Config) (i : TickInput) (s : BotState)
    (h0 : 0 < i.current_bid) :
    (processBid cfg i s).1.is_my_bid =
      (if cfg.my_user_auction_id = "" then false
       else (i.bidder_id == cfg.my_user_auction_id)) := by
  simp only [processBid]
  rw [if_pos h0]
  split_ifs <;> rfl

lemma processBid_no_submit_of_mine (cfg : Config) (i : TickInput) (s : BotState)
    (hid : cfg.my_user_auction_id ≠ "")
    (hbid : i.bidder_id = cfg.my_user_auction_id) :
    (processBid cfg i s).2 = [] := by
  by_cases h0 : 0 < i.current_bid
  · rw [processBid_notEligible cfg s i h0 ?_]
    rintro ⟨-, hm, -⟩
    rw [if_neg hid, hbid] at hm
    simp at hm
  · rw [processBid_noBid cfg s i h0]

/-- Claim C4: when an own participant id is configured and the latest
observation names it as the bidder, the iteration makes no submit call, no
matter the amount; and when no own id is configured (empty string), the
self-bid flag computed for any live observation is false. -/
theorem self_bid_never_countered
    (cfg : Config) (s : BotState) (i : TickInput) :
    (cfg.my_user_auction_id ≠ "" → i.bidder_id = cfg.my_user_auction_id →
      ∀ amt, Action.submit amt ∉ (step cfg s i).2) ∧
    (cfg.my_user_auction_id = "" → 0 < get_remaining_seconds cfg.end_time i.server_now →
      0 < i.current_bid → (step cfg s i).1.is_my_bid = false) := by
  constructor
  · intro hid hbid amt
    by_cases hrem : get_remaining_seconds cfg.end_time i.server_now ≤ 0
    · rw [step_of_nonpos cfg s i hrem]
      simp
    · rw [step_of_pos cfg s i (not_le.mp hrem)]
      rw [processBid_no_submit_of_mine cfg i _ hid hbid]
      simp
  · intro hid hrem hcur
    rw [step_of_pos cfg s i hrem]
    rw [processBid_is_my_bid cfg i _ hcur, if_pos hid]

/-- Witness for C4: with own id "me" configured, an observation of 500000 by
"me" yields no submit; with no own id configured, the same observation sets
the self-bid flag to false. -/
theorem self_bid_never_countered_witness :
    (∀ amt, Action.submit amt ∉
      (step cfgImmediate { startState cfgImmediate with my_last_bid := 450000 }
        (mkTick 500000 "me" 0)).2) ∧
    (step { cfgImmediate with my_user_auction_id := "" }
        { startState { cfgImmediate with my_user_auction_id := "" } with my_last_bid := 450000 }
        (mkTick 500000 "me" 0)).1.is_my_bid = false :=
  ⟨(self_bid_never_countered cfgImmediate
      { startState cfgImmediate with my_last_bid := 450000 } (mkTick 500000 "me" 0)).1
      (by decide) (by decide),
    (self_bid_never_countered { cfgImmediate with my_user_auction_id := "" }
      { startState { cfgImmediate with my_user_auction_id := "" } with my_last_bid := 450000 }
      (mkTick 500000 "me" 0)).2 (by decide) (by decide) (by decide)⟩

/-! ## C5: sniper mode temporal behavior -/

lemma processBid_bidding_active (cfg : Config) (i : TickInput) (s : BotState) :
    (processBid cfg i s).1.bidding_active = s.bidding_active := by
  simp only [processBid]
  split_ifs <;> rfl

lemma step_bidding_active_eq (cfg : Config) (s : BotState) (i : TickInput) :
    (step cfg s i).1.bidding_active =
      if get_remaining_seconds cfg.end_time i.server_now ≤ 0 then s.bidding_active
      else (sniperCheck cfg (get_remaining_seconds cfg.end_time i.server_now) s).bidding_active := by
  by_cases hrem : get_remaining_seconds cfg.end_time i.server_now ≤ 0
  · rw [step_of_nonpos cfg s i hrem, if_pos hrem]
  · rw [step_of_pos cfg s i (not_le.mp hrem), if_neg hrem]
    rw [processBid_bidding_active, reconcileMyBid_bidding_active, pollStats_bidding_active]

lemma step_active_mono (cfg : Config) (s : BotState) (i : TickInput)
    (h : s.bidding_active = true) : (step cfg s i).1.bidding_active = true := by
  rw [step_bidding_active_eq]
  split_ifs
  · exact h
  · exact sniperCheck_active_mono cfg s _ h

lemma traceStates_head (cfg : Config) (s : BotState) (inputs : List TickInput) :
    (traceStates cfg s inputs).head? = some s := by
  cases inputs with
  | nil => rfl
  | cons i is =>
    unfold traceStates
    split <;> rfl

/-- Claim C5: with a positive sniper threshold the bot starts in Standby and
with threshold 0 it starts Active; an Active iteration never reverts to
Standby (so the Standby-to-Active transition happens at most once along any
execution trace); and a Standby iteration of a live auction becomes Active
exactly when the remaining time is at or below the threshold. -/
theorem sniper_mode_transitions (cfg : Config) :
    ((initState cfg).bidding_active = true ↔ cfg.sniper_seconds = 0) ∧
    (∀ (s : BotState) (i : TickInput), s.bidding_active = true →
      (step cfg s i).1.bidding_active = true) ∧
    (∀ (s : BotState) (i : TickInput), s.bidding_active = false →
      0 < cfg.sniper_seconds →
      0 < get_remaining_seconds cfg.end_time i.server_now →
      ((step cfg s i).1.bidding_active = true ↔
        get_remaining_seconds cfg.end_time i.server_now ≤ (cfg.sniper_seconds : ℚ))) ∧
    (∀ (s : BotState) (inputs : List TickInput),
      List.Chain' (fun a b => a.bidding_active = true → b.bidding_active = true)
        (traceStates cfg s inputs)) := by
  refine ⟨?_, fun s i => step_active_mono cfg s i, ?_, ?_⟩
  · simp [initState]
  · intro s i hstand hsn hrem
    rw [step_bidding_active_eq, if_neg (not_le.mpr hrem)]
    unfold sniperCheck
    rw [if_pos ⟨hstand, hsn⟩]
    by_cases hr : get_remaining_seconds cfg.end_time i.server_now ≤ (cfg.sniper_seconds : ℚ)
    · rw [if_pos hr]
      simp [hr]
    · rw [if_neg hr]
      simp [hstand, hr]
  · intro s inputs
    induction inputs generalizing s with
    | nil => simp [traceStates]
    | cons i is ih =>
      unfold traceStates
      split
      · rw [List.chain'_cons']
        refine ⟨?_, ih _⟩
        intro b hb
        rw [traceStates_head] at hb
        cases hb
        exact step_active_mono cfg s i
      · simp

/-- Witness for C5: with threshold 10 and 10 rational seconds remaining, a
Standby iteration of a live auction activates. -/
theorem sniper_mode_transitions_witness :
    (step { cfgImmediate with sniper_seconds := 10, end_time := some 110 }
        (startState { cfgImmediate with sniper_seconds := 10, end_time := some 110 })
        (mkTick 0 "" 0)).1.bidding_active = true :=
  ((sniper_mode_transitions { cfgImmediate with sniper_seconds := 10, end_time := some 110 }).2.2.1
      (startState { cfgImmediate with sniper_seconds := 10, end_time := some 110 })
      (mkTick 0 "" 0) (by decide) (by decide)
      (by norm_num [get_remaining_seconds, cfgImmediate, mkTick, lt_max_iff])).mpr
    (by norm_num [get_remaining_seconds, cfgImmediate, mkTick, max_le_iff])

/-! ## C6: auction end stops the loop before any further call -/

/-- Claim C6: an iteration whose remaining time (end time minus synchronized
server time, clamped to be non-negative — never negative, and literally
`max 0 (endTime - serverNow)` when an end time is set) is 0 clears the
running flag and performs neither a poll nor a submit; and once the running
flag is cleared the loop consumes no further input and performs no further
action. -/
theorem auction_end_stops_loop :
    (∀ (cfg : Config) (s : BotState) (i : TickInput),
      get_remaining_seconds cfg.end_time i.server_now ≤ 0 →
      (step cfg s i).1.running = false ∧ (step cfg s i).2 = []) ∧
    (∀ (cfg : Config) (s : BotState) (inputs : List TickInput),
      s.running = false → runLoop cfg s inputs = (s, [])) ∧
    (∀ (endTime : Option ℚ) (now : ℚ), 0 ≤ get_remaining_seconds endTime now) ∧
    (∀ (t now : ℚ), get_remaining_seconds (some t) now = max 0 (t - now)) := by
  refine ⟨?_, fun cfg s inputs h => runLoop_stopped cfg s inputs h, ?_, fun t now => rfl⟩
  · intro cfg s i hrem
    rw [step_of_nonpos cfg s i hrem]
    exact ⟨rfl, rfl⟩
  · intro endTime now
    cases endTime with
    | none => norm_num [get_remaining_seconds]
    | some t => exact le_max_left 0 _

/-- Witness for C6: with end time 50 and server time 100 the remaining time
is 0; the iteration stops the bot and performs no call, and the stopped loop
ignores any further input. -/
theorem auction_end_stops_loop_witness :
    ((step { cfgImmediate with end_time := some 50 }
        (startState { cfgImmediate with end_time := some 50 }) (mkTick 0 "" 0)).1.running = false ∧
      (step { cfgImmediate with end_time := some 50 }
        (startState { cfgImmediate with end_time := some 50 }) (mkTick 0 "" 0)).2 = []) ∧
    runLoop cfgImmediate (initState cfgImmediate) [mkTick 0 "" 0] =
      (initState cfgImmediate, []) :=
  ⟨auction_end_stops_loop.1 { cfgImmediate with end_time := some 50 }
      (startState { cfgImmediate with end_time := some 50 }) (mkTick 0 "" 0)
      (by norm_num [get_remaining_seconds, cfgImmediate, mkTick]),
    auction_end_stops_loop.2.1 cfgImmediate (initState cfgImmediate) [mkTick 0 "" 0] (by decide)⟩

end Lelang

namespace Lelang

/-! ## C7: submission success condition and failure handling -/

/-- Claim C7: a submission is reported successful exactly when the HTTP
status is 200 and the parsed body carries `code = 200`; and on an eligible
iteration whose submit fails (HTTP error, exception, or business rejection
such as body code 400 with message "passkey salah"), the failure message is
appended to the error list while `my_last_bid` keeps its ledger-reconciled
value, the submitted-bid counter is unchanged, and the running flag and mode
are untouched. -/
theorem submit_success_iff_code_200 :
    (∀ o : SubmitOutcome, (submit_bid_fast o).1 = true ↔
      (∃ b, o = SubmitOutcome.resp 200 (JsonParse.ok b) ∧ b.code = some 200)) ∧
    (∀ (cfg : Config) (s : BotState) (i : TickInput),
      0 < get_remaining_seconds cfg.end_time i.server_now →
      s.bidding_active = true →
      0 < i.current_bid →
      (if cfg.my_user_auction_id = "" then false
       else (i.bidder_id == cfg.my_user_auction_id)) = false →
      (if 0 < i.my_bid_now then i.my_bid_now else s.my_last_bid) ≤ i.current_bid →
      i.current_bid + cfg.kelipatan_bid ≤ cfg.max_budget →
      (submit_bid_fast i.submit_resp).1 = false →
      (step cfg s i).1.errors = s.errors ++ [(submit_bid_fast i.submit_resp).2] ∧
      (step cfg s i).1.my_last_bid = (if 0 < i.my_bid_now then i.my_bid_now else s.my_last_bid) ∧
      (step cfg s i).1.total_bids_submitted = s.total_bids_submitted ∧
      (step cfg s i).1.running = s.running ∧
      (step cfg s i).1.bidding_active = true) := by
  constructor
  · intro o
    match o with
    | .exn e => simp [submit_bid_fast]
    | .resp status (.ok b) =>
      simp only [submit_bid_fast]
      split_ifs with h1 h2 <;> simp_all
    | .resp status (.err e) =>
      simp only [submit_bid_fast]
      split_ifs <;> simp_all
  · intro cfg s i hrem hact hcur hmine hge hbud hfail
    have hs3act : (reconcileMyBid i.my_bid_now (pollStats i
        (sniperCheck cfg (get_remaining_seconds cfg.end_time i.server_now) s))).bidding_active = true := by
      rw [reconcileMyBid_bidding_active, pollStats_bidding_active]
      exact sniperCheck_active_mono cfg s _ hact
    have hs3ge : (reconcileMyBid i.my_bid_now (pollStats i
        (sniperCheck cfg (get_remaining_seconds cfg.end_time i.server_now) s))).my_last_bid ≤ i.current_bid := by
      rw [reconcileMyBid_my_last_bid, pollStats_my_last_bid, sniperCheck_my_last_bid]
      exact hge
    have hstep := step_of_pos cfg s i hrem
    rw [processBid_fail cfg _ i hcur hs3act hmine hs3ge hbud hfail] at hstep
    refine ⟨?_, ?_, ?_, ?_, ?_⟩ <;> rw [hstep] <;>
      simp [reconcileMyBid_my_last_bid, sniperCheck_active_mono cfg s _ hact]

/-- Witness for C7: an eligible iteration whose submit returns HTTP 200 with
body code 400 and message "passkey salah" records exactly that message as a
new error and leaves the own-bid state, counter, and running flag as they
were. -/
theorem submit_success_iff_code_200_witness :
    (step cfgImmediate { startState cfgImmediate with my_last_bid := 450000 }
        { mkTick 500000 "other" 0 with
            submit_resp := .resp 200 (.ok ⟨some 400, some "passkey salah"⟩) }).1.errors =
      [] ++ ["passkey salah"] ∧
    (step cfgImmediate { startState cfgImmediate with my_last_bid := 450000 }
        { mkTick 500000 "other" 0 with
            submit_resp := .resp 200 (.ok ⟨some 400, some "passkey salah"⟩) }).1.running = true := by
  have h := submit_success_iff_code_200.2 cfgImmediate
    { startState cfgImmediate with my_last_bid := 450000 }
    { mkTick 500000 "other" 0 with
        submit_resp := .resp 200 (.ok ⟨some 400, some "passkey salah"⟩) }
    (by decide) (by decide) (by decide) (by decide) (by decide) (by decide) (by decide)
  exact ⟨h.1, h.2.2.2.1⟩

/-! ## C8: total poll failure yields the sentinel, silently -/

/-- Counterexample to C8: a poll whose races all fail or return an empty
ledger yields the sentinel result, but the error list is returned exactly as
it was — no error is recorded, contrary to the claim. -/
theorem poller_failure_records_no_error :
    get_latest_bid_concurrent "me" [] [(none, 3), (some [], 5)] 12 = ((0, "", 0, 12), []) := by
  rfl

/-- Claim C8 as amended: when every raced request fails or returns an empty
or unparseable ledger, the poller returns the sentinel no-observation result
(amount 0, empty bidder id, own bid 0, and the total elapsed time) without
raising and without recording any error (the error list is unchanged); and
an iteration that receives the sentinel observation leaves the running flag
unchanged, so the loop continues with the next tick. -/
theorem poller_total_failure_sentinel
    (myId : String) (errs : List String)
    (results : List (Option (List BidRecord) × ℚ)) (te : ℚ)
    (h : ∀ r ∈ results, r.1 = none ∨ r.1 = some []) :
    get_latest_bid_concurrent myId errs results te = ((0, "", 0, te), errs) ∧
    (∀ (cfg : Config) (s : BotState) (i : TickInput),
      0 < get_remaining_seconds cfg.end_time i.server_now →
      i.current_bid ≤ 0 →
      (step cfg s i).1.running = s.running) := by
  constructor
  · induction results with
    | nil => rfl
    | cons r rest ih =>
      obtain ⟨d, e⟩ := r
      rcases h (d, e) (List.mem_cons_self _ _) with hd | hd <;> subst hd <;>
        exact ih fun r hr => h r (List.mem_cons_of_mem _ hr)
  · intro cfg s i hrem hcur
    rw [step_of_pos cfg s i hrem,
      processBid_noBid cfg _ i (not_lt.mpr hcur)]
    rw [reconcileMyBid_running, pollStats_running, sniperCheck_running]

/-- Witness for the amended C8: two failed races (one exception, one empty
ledger) produce the sentinel with the prior error list intact, and the
iteration consuming the sentinel keeps running. -/
theorem poller_total_failure_sentinel_witness :
    get_latest_bid_concurrent "me" ["old"] [(none, 3), (some [], 5)] 12 =
      ((0, "", 0, 12), ["old"]) ∧
    (step cfgImmediate (startState cfgImmediate) (mkTick 0 "" 0)).1.running =
      (startState cfgImmediate).running := by
  have h := poller_total_failure_sentinel "me" ["old"] [(none, 3), (some [], 5)] 12 (by decide)
  exact ⟨h.1, h.2 cfgImmediate (startState cfgImmediate) (mkTick 0 "" 0) (by decide) (by decide)⟩

end Lelang

namespace Lelang

/-! ## C9: clock synchronization -/

/-- Claim C9: a successful sync records
`offset = reportedServerTime - (T0 + roundTrip / 2)` (round trip `T1 - T0`,
symmetric-delay midpoint estimate) and marks the state synced; afterwards
`get_server_time` is the local clock plus the recorded offset, so two reads
without a re-sync differ exactly by the elapsed local wall time. -/
theorem clock_sync_offset
    (st : SyncState) (status : Nat) (body : BodyParse) (hdr : Option ℚ) (T0 T1 : ℚ)
    (h : (sync_server_time st status body hdr T0 T1).2 = true) :
    (∃ r, reported_server_time status body hdr = some r ∧
      (sync_server_time st status body hdr T0 T1).1.offset = r - (T0 + (T1 - T0) / 2) ∧
      (sync_server_time st status body hdr T0 T1).1.is_synced = true) ∧
    (∀ (st2 : SyncState) (t : ℚ), get_server_time st2 t = t + st2.offset) ∧
    (∀ (st2 : SyncState) (t1 t2 : ℚ),
      get_server_time st2 t2 - get_server_time st2 t1 = t2 - t1) := by
  refine ⟨?_, fun st2 t => rfl, fun st2 t1 t2 => by unfold get_server_time; ring⟩
  by_cases hs : status = 200 <;> cases body <;> cases hdr <;>
    simp_all [sync_server_time, reported_server_time]

/-- Witness for C9: a sync against a body time of 1000 with the request
bracketed by local times 100 and 104 records offset
`1000 - (100 + 2) = 898`. -/
theorem clock_sync_offset_witness :
    ∃ r, reported_server_time 200 (BodyParse.dataTime 1000) none = some r ∧
      (sync_server_time ⟨0, false⟩ 200 (BodyParse.dataTime 1000) none 100 104).1.offset =
        r - (100 + (104 - 100) / 2) ∧
      (sync_server_time ⟨0, false⟩ 200 (BodyParse.dataTime 1000) none 100 104).1.is_synced = true :=
  (clock_sync_offset ⟨0, false⟩ 200 (BodyParse.dataTime 1000) none 100 104 rfl).1

/-! ## C10: missing or unparseable end time -/

/-- Counterexample to C10: with an unparseable end time the remaining time
is the constant 9999999, so a sniper threshold of 9999999 (or more) crosses
it immediately: a Standby iteration does transition to Active, contradicting
the claim that with any positive threshold the bot never activates. -/
theorem no_end_time_sniper_activates :
    (step { cfgImmediate with sniper_seconds := 9999999 }
        { startState { cfgImmediate with sniper_seconds := 9999999 } with bidding_active := false }
        (mkTick 0 "" 0)).1.bidding_active = true := by
  decide

/-- Claim C10 as amended: an empty or unparseable end-time string parses to
`none`; with no parsed end time `get_remaining_seconds` is the constant
9999999 on every call, so the auction-end stop condition (remaining ≤ 0)
never triggers; and when `0 < sniperSeconds < 9999999` a Standby iteration
never transitions to Active (with `sniperSeconds ≥ 9999999` the constant
remaining time already lies below the threshold and the bot activates
immediately). -/
theorem no_end_time_behavior :
    (∀ parsed, parse_datetime "" parsed = none) ∧
    (∀ dtStr, parse_datetime dtStr none = none) ∧
    (∀ now : ℚ, get_remaining_seconds none now = 9999999) ∧
    (∀ now : ℚ, ¬ get_remaining_seconds none now ≤ 0) ∧
    (∀ (cfg : Config) (s : BotState) (i : TickInput),
      cfg.end_time = none → 0 < cfg.sniper_seconds → (cfg.sniper_seconds : ℚ) < 9999999 →
      s.bidding_active = false → (step cfg s i).1.bidding_active = false) := by
  refine ⟨fun parsed => rfl, ?_, fun now => rfl, ?_, ?_⟩
  · intro dtStr
    unfold parse_datetime
    split <;> rfl
  · intro now
    norm_num [get_remaining_seconds]
  · intro cfg s i hend hsn hlt hstand
    rw [step_bidding_active_eq, hend]
    rw [if_neg (by norm_num [get_remaining_seconds])]
    unfold sniperCheck
    rw [if_pos ⟨hstand, hsn⟩, get_remaining_seconds]
    rw [if_neg (not_le.mpr hlt), hstand]

/-- Witness for the amended C10: with threshold 10 and no parsed end time, a
Standby iteration stays in Standby. -/
theorem no_end_time_behavior_witness :
    (step { cfgImmediate with sniper_seconds := 10 }
        { startState { cfgImmediate with sniper_seconds := 10 } with bidding_active := false }
        (mkTick 0 "" 0)).1.bidding_active = false :=
  no_end_time_behavior.2.2.2.2 { cfgImmediate with sniper_seconds := 10 }
    { startState { cfgImmediate with sniper_seconds := 10 } with bidding_active := false }
    (mkTick 0 "" 0) rfl (by decide) (by norm_num) (by decide)

end Lelang
